import Mathlib

/-!
Shallow embedding of the job-processor service (Rust, sqlx/Postgres) used to
check the natural-language specification against the code.

The `jobs` table is modelled as a list of rows in physical order together with
the id sequence; each repository method from `src/db/job_repository.rs` becomes
a pure state-passing function.  Timestamps are natural numbers; the clock value
at the moment a statement runs is passed in as `now`.  Fallible statements take
a boolean oracle `ok` deciding whether the database accepts the statement: a
single SQL statement either applies in full or fails leaving the state
unchanged.
-/

namespace JobProcessor

/-- The `JobStatus` enum from `src/api/job/models.rs`. -/
inductive JobStatus where
  | New
  | Processing
  | Success
  | Failed
deriving DecidableEq, Repr

/-- The derived Rust `Debug` rendering of a `JobStatus` value (the variant name). -/
def debugStr : JobStatus → String
  | .New => "New"
  | .Processing => "Processing"
  | .Success => "Success"
  | .Failed => "Failed"

/-- `str::to_lowercase` restricted to its ASCII behaviour (variant names are
ASCII): lowercase every character. -/
def toLowercase (s : String) : String :=
  String.mk (s.data.map Char.toLower)

/-- `format!("{:?}", job.status).to_lowercase()` as computed in
`JobRepository::create` and `JobRepository::bulk_create`. -/
def statusStr (s : JobStatus) : String :=
  toLowercase (debugStr s)

/-- The `Job` model from `src/api/job/models.rs` (request payload). -/
structure Job where
  name : String
  status : JobStatus
deriving DecidableEq, Repr

/-- The `JobRow` record from `src/db/models.rs`: one row of the `jobs` table. -/
structure JobRow where
  id : Nat
  name : String
  status : String
  created_at : Nat
  updated_at : Nat
deriving DecidableEq, Repr

/-- The `jobs` table: rows in physical order plus the id sequence.  The schema
(spec §6) auto-assigns `id` and defaults both timestamps to the insert time. -/
structure Store where
  rows : List JobRow
  nextId : Nat
deriving DecidableEq, Repr

/-- `INSERT INTO jobs (name, status) VALUES ($1, $2) RETURNING ...` from
`JobRepository::create`: the database assigns `id` from the sequence and
defaults both timestamps to `now`; `name` and `status` are the bound values,
the status being the lowercased `Debug` encoding of `job.status`. -/
def create (job : Job) (now : Nat) (s : Store) : JobRow × Store :=
  let row : JobRow := ⟨s.nextId, job.name, statusStr job.status, now, now⟩
  (row, ⟨s.rows ++ [row], s.nextId + 1⟩)

/-- `JobRepository::create` with its failure mode: `ok` is the database oracle
for the single INSERT statement; on failure no row is persisted. -/
def createOp (ok : Bool) (job : Job) (now : Nat) (s : Store) :
    Except Unit (JobRow × Store) :=
  if ok then .ok (create job now s) else .error ()

/-- The `(name, status)` bind tuples built by the loop in
`JobRepository::bulk_create`, in order. -/
def bulkTuples (jobs : List Job) : List (String × String) :=
  jobs.map (fun j => (j.name, statusStr j.status))

/-- Effect of one `(name, status)` VALUES tuple of the bulk INSERT: append one
row with a fresh id and both timestamps defaulted to the statement time. -/
def insertTuple (now : Nat) (s : Store) (t : String × String) : Store :=
  ⟨s.rows ++ [⟨s.nextId, t.1, t.2, now, now⟩], s.nextId + 1⟩

/-- A statement sent to the database (used to record whether the store was
contacted at all). -/
inductive DbStmt where
  | insertMany (tuples : List (String × String))
deriving DecidableEq, Repr

/-- `JobRepository::bulk_create`: empty input returns `Ok(0)` before any
database statement is built; otherwise a single multi-row INSERT statement is
executed, which the database either applies in full (`rows_affected` = number
of tuples) or rejects leaving the table unchanged.  The second component is the
post-state, the third the list of statements sent to the store. -/
def bulk_create (ok : Bool) (jobs : List Job) (now : Nat) (s : Store) :
    Except Unit Nat × Store × List DbStmt :=
  if jobs.isEmpty then (.ok 0, s, [])
  else
    let ts := bulkTuples jobs
    if ok then (.ok ts.length, ts.foldl (insertTuple now) s, [.insertMany ts])
    else (.error (), s, [.insertMany ts])

/-- `WHERE status = 'new'`: the claimable rows, in physical order. -/
def newRows (rows : List JobRow) : List JobRow :=
  rows.filter (fun r => decide (r.status = "new"))

/-- One comparison step of `ORDER BY created_at ASC LIMIT 1`: keep the current
best unless the candidate is strictly older.  Rows with equal `created_at` are
left in physical order — the query has no further sort key. -/
def oldest (best x : JobRow) : JobRow :=
  if x.created_at < best.created_at then x else best

/-- `ORDER BY created_at ASC LIMIT 1` over a candidate list: the first row in
physical order whose `created_at` is minimal, or `none` when empty. -/
def pickOldest : List JobRow → Option JobRow
  | [] => none
  | r :: rs => some (rs.foldl oldest r)

/-- The SELECT of `JobRepository::acquire_next_job`:
`SELECT ... FROM jobs WHERE status = 'new' ORDER BY created_at ASC LIMIT 1`. -/
def selectNext (rows : List JobRow) : Option JobRow :=
  pickOldest (newRows rows)

set_option linter.unusedVariables false in
/-- `JobRepository::acquire_next_job`: select one `'new'` row (oldest first);
if none, roll back and return `none`; otherwise
`UPDATE jobs SET status = 'processing' WHERE id = $1 RETURNING ...` and commit.
The UPDATE touches only the `status` column.  `now`, the clock at the time of
the claim, is available to the statement but unused by it. -/
def acquire_next_job (now : Nat) (s : Store) : Option JobRow × Store :=
  match selectNext s.rows with
  | none => (none, s)
  | some pre =>
    let upd : JobRow := ⟨pre.id, pre.name, "processing", pre.created_at, pre.updated_at⟩
    (some upd, ⟨s.rows.map (fun r => if r.id = pre.id then upd else r), s.nextId⟩)

/-- The selection rule exactly as the spec words it: the `'new'` row minimal
under the lexicographic order (`created_at` ascending, then `id` ascending).
Kept separate from `selectNext` (the code's query) so the two can be compared. -/
def specSelectNext (rows : List JobRow) : Option JobRow :=
  match newRows rows with
  | [] => none
  | r :: rs => some (rs.foldl (fun best x =>
      if x.created_at < best.created_at ∨
         (x.created_at = best.created_at ∧ x.id < best.id) then x else best) r)

/-- Modelled from the spec: `JobRepository::update_job_status` is called by the
worker (`src/worker/job_worker.rs`) and the service, but its definition is not
among the source files.  Spec §4.1 `SetStatus`: updates `status` and
`updated_at` for the given `id`, unguarded by the row's current status. -/
def update_job_status (id : Nat) (status : String) (now : Nat) (s : Store) : Store :=
  ⟨s.rows.map (fun r => if r.id = id then ⟨r.id, r.name, status, r.created_at, now⟩ else r),
   s.nextId⟩

/-- One status write issued to the store, as observed by the executor trace. -/
structure StatusWrite where
  jobId : Nat
  status : String
deriving DecidableEq, Repr

/-- The outcome rule of the spawned executor task in `JobWorker::run`:
`let status = if success_rate < 77 { "success" } else { "failed" }`. -/
def executorStatus (r : Nat) : String :=
  if r < 77 then "success" else "failed"

/-- The spawned executor task body from `JobWorker::run` after its simulated
work sleep: draw `r`, compute the terminal status, write it once via
`update_job_status` (logging, never retrying).  The second component is the
trace of status writes the task issues. -/
def runExecutor (jobId r now : Nat) (s : Store) : Store × List StatusWrite :=
  let st := executorStatus r
  (update_job_status jobId st now s, [⟨jobId, st⟩])

/-- Result of `JobRepository::acquire_next_job` as seen by the worker loop. -/
inductive ClaimResult where
  | found (job : JobRow)
  | empty
  | dbError
deriving DecidableEq, Repr

/-- Result of `semaphore.acquire_owned().await`: a permit, or an error because
the semaphore was closed. -/
inductive PermitResult where
  | granted
  | closed
deriving DecidableEq, Repr

/-- The log lines emitted by one iteration of `JobWorker::run`. -/
inductive LogMsg where
  | shutdownObserved
  | acquiredJob (id : Nat)
  | permitGranted (id : Nat)
  | permitAcquireFailed
  | noJobsIdle
  | dbErrorLogged
deriving DecidableEq, Repr

/-- How one iteration of the `loop` in `JobWorker::run` ends: `breakLoop` is
the `break` statement; every other outcome falls through to the next
iteration. -/
inductive StepOutcome where
  | breakLoop
  | spawnedExecutor (jobId : Nat)
  | continueNoPermit
  | continueIdle (sleepSecs : Nat)
  | continueError (sleepSecs : Nat)
deriving DecidableEq, Repr

/-- One iteration of the `loop` body of `JobWorker::run`: check the shutdown
flag and `break` if set; otherwise match the claim result; on a claimed job,
match the permit acquisition; the `Err` arm of the permit match only logs an
error — control falls through and the loop continues. -/
def workerStep (shutdownFlag : Bool) (claim : ClaimResult) (permit : PermitResult) :
    StepOutcome × List LogMsg :=
  if shutdownFlag then (.breakLoop, [.shutdownObserved])
  else
    match claim with
    | .found job =>
      match permit with
      | .granted => (.spawnedExecutor job.id, [.acquiredJob job.id, .permitGranted job.id])
      | .closed => (.continueNoPermit, [.acquiredJob job.id, .permitAcquireFailed])
    | .empty => (.continueIdle 5, [.noJobsIdle])
    | .dbError => (.continueError 1, [.dbErrorLogged])

/-- State owned by `ShutdownCoordinator` (`src/shutdown.rs`): whether the HTTP
server still accepts connections, the worker shutdown flag, how many worker
handles have been awaited, whether the server task has been awaited, and
whether the connection pool is open. -/
structure CoordState where
  accepting : Bool
  flag : Bool
  workersAwaited : Nat
  serverTaskAwaited : Bool
  poolOpen : Bool
deriving DecidableEq, Repr

/-- The externally visible actions of `ShutdownCoordinator::shutdown`, in the
order they are awaited. -/
inductive ShutdownEvent where
  | stopServer (graceful : Bool)
  | setFlag (v : Bool)
  | awaitWorker (i : Nat)
  | awaitServer
  | closePool
deriving DecidableEq, Repr

/-- Step 1 of `ShutdownCoordinator::shutdown`:
`self.server_handle.stop(true).await` — stop accepting new connections and
drain in-flight requests (graceful = true). -/
def stopServerStep (st : CoordState) : CoordState × List ShutdownEvent :=
  ({ st with accepting := false }, [.stopServer true])

/-- Step 2: `self.shutdown_tx.send(true)` — flip the shutdown flag. -/
def setFlagStep (st : CoordState) : CoordState × List ShutdownEvent :=
  ({ st with flag := true }, [.setFlag true])

/-- Step 3: the `for` loop awaiting every worker handle in order. -/
def awaitWorkersStep (n : Nat) (st : CoordState) : CoordState × List ShutdownEvent :=
  ({ st with workersAwaited := n }, (List.range n).map .awaitWorker)

/-- Step 4: `self.server_task.await`. -/
def awaitServerStep (st : CoordState) : CoordState × List ShutdownEvent :=
  ({ st with serverTaskAwaited := true }, [.awaitServer])

/-- Step 5: `self.pool.close().await`. -/
def closePoolStep (st : CoordState) : CoordState × List ShutdownEvent :=
  ({ st with poolOpen := false }, [.closePool])

/-- Sequential composition of two coordinator steps: the first runs to
completion (its state update applied, its events emitted) before the second
begins. -/
def seqStep (a b : CoordState → CoordState × List ShutdownEvent) (st : CoordState) :
    CoordState × List ShutdownEvent :=
  let r1 := a st
  let r2 := b r1.1
  (r2.1, r1.2 ++ r2.2)

/-- `ShutdownCoordinator::shutdown` for `n` worker handles: the five steps of
the source, composed strictly in source order. -/
def shutdownRun (n : Nat) : CoordState → CoordState × List ShutdownEvent :=
  seqStep (seqStep (seqStep (seqStep stopServerStep setFlagStep) (awaitWorkersStep n))
    awaitServerStep) closePoolStep

/-- The teardown order exactly as the spec lists it: stop the server, set the
flag, await every worker handle, await the server task, close the pool. -/
def specShutdownOrder (n : Nat) : List ShutdownEvent :=
  [.stopServer true, .setFlag true] ++ (List.range n).map .awaitWorker ++
    [.awaitServer, .closePool]

/-- Which of the spec's five shutdown steps an event belongs to. -/
def phase : ShutdownEvent → Nat
  | .stopServer _ => 0
  | .setFlag _ => 1
  | .awaitWorker _ => 2
  | .awaitServer => 3
  | .closePool => 4

/-- `st ∈ {new, processing, success, failed}` as a boolean. -/
def validStatusB (st : String) : Bool :=
  st == "new" || st == "processing" || st == "success" || st == "failed"

/-- Every row of the table carries one of the four status strings. -/
def storeInv (s : Store) : Bool :=
  s.rows.all (fun r => validStatusB r.status)

/-- The store-writing operations the program performs, with their oracles:
single insert, bulk insert, claim-next, and the executor's terminal write
(parameterised by the random draw `r`). -/
inductive StoreOp where
  | insertOne (ok : Bool) (job : Job)
  | bulkInsert (ok : Bool) (jobs : List Job)
  | claimNext
  | finalize (jobId : Nat) (r : Nat)
deriving Repr

/-- The store state after one operation runs at clock `now`. -/
def applyOp (op : StoreOp) (now : Nat) (s : Store) : Store :=
  match op with
  | .insertOne ok job =>
    match createOp ok job now s with
    | .ok p => p.2
    | .error _ => s
  | .bulkInsert ok jobs => (bulk_create ok jobs now s).2.1
  | .claimNext => (acquire_next_job now s).2
  | .finalize jobId r => (runExecutor jobId r now s).1

/-! ### Helper lemmas -/

lemma statusStr_New : statusStr .New = "new" := by decide

lemma validStatusB_statusStr (js : JobStatus) : validStatusB (statusStr js) = true := by
  cases js <;> decide

lemma validStatusB_executorStatus (r : Nat) : validStatusB (executorStatus r) = true := by
  unfold executorStatus
  split <;> decide

lemma mem_foldl_oldest (rs : List JobRow) (r : JobRow) :
    rs.foldl oldest r = r ∨ rs.foldl oldest r ∈ rs := by
  induction rs generalizing r with
  | nil => exact Or.inl rfl
  | cons x xs ih =>
    rw [List.foldl_cons]
    rcases ih (oldest r x) with h | h
    · rw [h]
      by_cases hx : x.created_at < r.created_at
      · right
        simp [oldest, hx]
      · left
        simp [oldest, hx]
    · right
      exact List.mem_cons_of_mem x h

lemma mem_newRows {rows : List JobRow} {x : JobRow} (h : x ∈ newRows rows) :
    x ∈ rows ∧ x.status = "new" := by
  unfold newRows at h
  have h2 := List.mem_filter.mp h
  exact ⟨h2.1, of_decide_eq_true h2.2⟩

lemma selectNext_mem {rows : List JobRow} {pre : JobRow} (h : selectNext rows = some pre) :
    pre ∈ rows ∧ pre.status = "new" := by
  unfold selectNext at h
  cases hn : newRows rows with
  | nil => rw [hn] at h; cases h
  | cons r rs =>
    rw [hn] at h
    simp [pickOldest] at h
    apply mem_newRows
    rw [hn]
    rcases mem_foldl_oldest rs r with h2 | h2
    · rw [h] at h2
      rw [h2]
      exact List.mem_cons_self r rs
    · rw [h] at h2
      exact List.mem_cons_of_mem r h2

lemma newRows_append (a b : List JobRow) : newRows (a ++ b) = newRows a ++ newRows b := by
  simp [newRows, List.filter_append]

lemma newRows_eq_nil {rows : List JobRow}
    (h : rows.all (fun r => !(decide (r.status = "new"))) = true) :
    newRows rows = [] := by
  unfold newRows
  rw [List.filter_eq_nil_iff]
  intro a ha
  have h2 := List.all_eq_true.mp h a ha
  simpa using h2

lemma foldl_insertTuple_rows (ts : List (String × String)) (now : Nat) (s : Store) :
    ∃ nr : List JobRow, (ts.foldl (insertTuple now) s).rows = s.rows ++ nr ∧
      nr.length = ts.length := by
  induction ts generalizing s with
  | nil => exact ⟨[], by simp, rfl⟩
  | cons t ts ih =>
    obtain ⟨nr, hrows, hlen⟩ := ih (insertTuple now s t)
    refine ⟨⟨s.nextId, t.1, t.2, now, now⟩ :: nr, ?_, by simp [hlen]⟩
    rw [List.foldl_cons, hrows]
    simp [insertTuple]

lemma storeInv_foldl_insertTuple {ts : List (String × String)} {now : Nat} {s : Store}
    (hts : ∀ t ∈ ts, validStatusB t.2 = true) (hs : storeInv s = true) :
    storeInv (ts.foldl (insertTuple now) s) = true := by
  induction ts generalizing s with
  | nil => simpa using hs
  | cons t ts ih =>
    rw [List.foldl_cons]
    refine ih (fun u hu => hts u (List.mem_cons_of_mem t hu)) ?_
    have ht := hts t (List.mem_cons_self t ts)
    simp only [storeInv, insertTuple, List.all_append, List.all_cons, List.all_nil,
      Bool.and_eq_true] at hs ⊢
    exact ⟨hs, ht, trivial⟩

lemma phase_mem_awaitWorkers {b : ShutdownEvent} {l : List Nat}
    (h : b ∈ l.map ShutdownEvent.awaitWorker) : phase b = 2 := by
  obtain ⟨i, _, rfl⟩ := List.mem_map.mp h
  rfl

lemma pairwise_awaitWorkers (l : List Nat) :
    List.Pairwise (fun a b => phase a ≤ phase b) (l.map ShutdownEvent.awaitWorker) := by
  induction l with
  | nil => exact List.Pairwise.nil
  | cons x xs ih =>
    rw [List.map_cons]
    exact List.Pairwise.cons
      (fun b hb => by rw [phase_mem_awaitWorkers hb]; exact Nat.le_refl 2) ih

/-! ### Claims -/

/-- C1: evaluation at the failing input.  Two `'new'` rows share
`created_at = 10`, physically ordered id 2 before id 1.  The code's query
(`ORDER BY created_at ASC LIMIT 1`, no id tie-break) claims the physically
first row, id 2, and promotes it to `'processing'`; the lexicographic
`(created_at, id)` rule the spec states selects id 1. -/
theorem c1_no_id_tiebreak :
    ((acquire_next_job 20 ⟨[⟨2, "bbb", "new", 10, 10⟩, ⟨1, "aaa", "new", 10, 10⟩], 3⟩).1.map
      (fun r => r.id) = some 2) ∧
    ((specSelectNext [⟨2, "bbb", "new", 10, 10⟩, ⟨1, "aaa", "new", 10, 10⟩]).map
      (fun r => r.id) = some 1) ∧
    (2 : Nat) ≠ 1 := by
  decide

/-- C6 counterexample: at an iteration with the shutdown flag unset, a claimed
job, and a closed permit pool, the loop logs the failure but the iteration's
outcome is `continue`, not `break`: the worker loop does not terminate there. -/
theorem c6_counterexample :
    (workerStep false (.found ⟨1, "abc", "processing", 0, 0⟩) .closed).1 =
      StepOutcome.continueNoPermit ∧
    StepOutcome.continueNoPermit ≠ StepOutcome.breakLoop ∧
    LogMsg.permitAcquireFailed ∈
      (workerStep false (.found ⟨1, "abc", "processing", 0, 0⟩) .closed).2 := by
  decide

/-- C6 (amended): when permit acquisition fails the worker logs the failure and
the loop continues to its next iteration; the loop breaks exactly when the
shutdown flag is observed true at the top of an iteration (every flag-false
branch continues). -/
theorem c6_permit_failure_logs_and_continues (job : JobRow) (c : ClaimResult)
    (p : PermitResult) :
    workerStep false (.found job) .closed =
      (.continueNoPermit, [.acquiredJob job.id, .permitAcquireFailed]) ∧
    (workerStep true c p).1 = .breakLoop ∧
    (workerStep false (.found job) .granted).1 = .spawnedExecutor job.id ∧
    (workerStep false .empty p).1 = .continueIdle 5 ∧
    (workerStep false .dbError p).1 = .continueError 1 := by
  exact ⟨rfl, rfl, rfl, rfl, rfl⟩

/-- C7: after the termination signal, the coordinator performs, strictly in
order: stop the HTTP server gracefully, set the shutdown flag to true, await
every worker handle, await the server task, close the pool — the emitted trace
is exactly the spec's order, its phases are monotone, and the final state shows
every effect applied. -/
theorem c7_shutdown_order (n : Nat) (st : CoordState) :
    (shutdownRun n st).2 = specShutdownOrder n ∧
    List.Pairwise (fun a b => phase a ≤ phase b) (shutdownRun n st).2 ∧
    (shutdownRun n st).1 = ⟨false, true, n, true, false⟩ := by
  have htr : (shutdownRun n st).2 = specShutdownOrder n := by
    simp [shutdownRun, seqStep, stopServerStep, setFlagStep, awaitWorkersStep,
      awaitServerStep, closePoolStep, specShutdownOrder]
  refine ⟨htr, ?_, ?_⟩
  · rw [htr]
    unfold specShutdownOrder
    refine List.Pairwise.cons (fun b hb => Nat.zero_le (phase b))
      (List.Pairwise.cons ?_ ?_)
    · intro b hb
      rcases List.mem_append.mp hb with h2 | h2
      · rw [phase_mem_awaitWorkers h2]
        exact Nat.le_of_lt (by decide)
      · simp only [List.mem_cons, List.not_mem_nil, or_false] at h2
        rcases h2 with rfl | rfl
        · exact Nat.le_of_lt (by decide)
        · exact Nat.le_of_lt (by decide)
    · refine List.pairwise_append.mpr ⟨pairwise_awaitWorkers (List.range n), ?_, ?_⟩
      · exact List.Pairwise.cons (fun b hb => by
          simp only [List.mem_singleton] at hb
          rw [hb]
          exact Nat.le_of_lt (by decide)) (List.Pairwise.cons (fun b hb => by cases hb)
            List.Pairwise.nil)
      · intro a ha b hb
        rw [phase_mem_awaitWorkers ha]
        simp only [List.mem_cons, List.not_mem_nil, or_false] at hb
        rcases hb with rfl | rfl
        · exact Nat.le_of_lt (by decide)
        · exact Nat.le_of_lt (by decide)
  · simp [shutdownRun, seqStep, stopServerStep, setFlagStep, awaitWorkersStep,
      awaitServerStep, closePoolStep]

/-- C9: bulk insert applied to the empty list returns 0, sends no statement to
the store, and leaves the store unchanged. -/
theorem c9_bulk_empty (ok : Bool) (now : Nat) (s : Store) :
    bulk_create ok [] now s = (.ok 0, s, []) := rfl

/-- C2: bulk insert of a non-empty list of K jobs is failure-atomic: on error
the store is unchanged (no row from the call persisted); on success the
returned count equals K and exactly K new rows are appended after the existing
rows. -/
theorem c2_bulk_insert_atomic (ok : Bool) (jobs : List Job) (now : Nat) (s : Store)
    (h : jobs ≠ []) :
    ((bulk_create ok jobs now s).1 = .error () → (bulk_create ok jobs now s).2.1 = s) ∧
    (∀ k, (bulk_create ok jobs now s).1 = .ok k →
      k = jobs.length ∧
      ∃ nr : List JobRow, (bulk_create ok jobs now s).2.1.rows = s.rows ++ nr ∧
        nr.length = jobs.length) := by
  cases jobs with
  | nil => exact absurd rfl h
  | cons j js =>
    cases ok with
    | false =>
      refine ⟨fun _ => rfl, fun k hk => ?_⟩
      simp [bulk_create] at hk
    | true =>
      refine ⟨fun hc => ?_, fun k hk => ?_⟩
      · simp [bulk_create] at hc
      · have hk2 : (bulkTuples (j :: js)).length = k := by
          simpa [bulk_create] using hk
        obtain ⟨nr, hrows, hlen⟩ := foldl_insertTuple_rows (bulkTuples (j :: js)) now s
        refine ⟨?_, nr, ?_, ?_⟩
        · rw [← hk2]
          simp [bulkTuples]
        · simpa [bulk_create] using hrows
        · rw [hlen]
          simp [bulkTuples]

/-- C2 witness: the bulk-atomicity theorem applied to a concrete one-job call
against the empty store. -/
theorem c2_bulk_insert_atomic_witness :
    ([(⟨"abc", JobStatus.New⟩ : Job)] ≠ []) ∧
    (((bulk_create true [⟨"abc", JobStatus.New⟩] 0 ⟨[], 1⟩).1 = .error () →
        (bulk_create true [⟨"abc", JobStatus.New⟩] 0 ⟨[], 1⟩).2.1 = ⟨[], 1⟩) ∧
      (∀ k, (bulk_create true [⟨"abc", JobStatus.New⟩] 0 ⟨[], 1⟩).1 = .ok k →
        k = [(⟨"abc", JobStatus.New⟩ : Job)].length ∧
        ∃ nr : List JobRow,
          (bulk_create true [⟨"abc", JobStatus.New⟩] 0 ⟨[], 1⟩).2.1.rows =
            (⟨[], 1⟩ : Store).rows ++ nr ∧
          nr.length = [(⟨"abc", JobStatus.New⟩ : Job)].length)) :=
  ⟨by decide, c2_bulk_insert_atomic true [⟨"abc", JobStatus.New⟩] 0 ⟨[], 1⟩ (by decide)⟩

/-- C3 counterexample: a successful Insert of a job submitted with status
`Failed` persists the row with status "failed", not "new": the lowercased
request status is what the INSERT binds. -/
theorem c3_counterexample :
    createOp true ⟨"abc", JobStatus.Failed⟩ 0 ⟨[], 1⟩ =
      .ok (create ⟨"abc", JobStatus.Failed⟩ 0 ⟨[], 1⟩) ∧
    (create ⟨"abc", JobStatus.Failed⟩ 0 ⟨[], 1⟩).1.status = "failed" ∧
    (create ⟨"abc", JobStatus.Failed⟩ 0 ⟨[], 1⟩).2.rows.map (fun r => r.status) =
      ["failed"] ∧
    ("failed" : String) ≠ "new" :=
  ⟨rfl, by decide, by decide, by decide⟩

/-- C3 (amended): a successful Insert persists the lowercased submitted status
('new' exactly when the job was submitted with status New) and returns the
full stored record: server-assigned id, bound name and status, both timestamps
set to the insert time; the row is appended to the table. -/
theorem c3_insert_returns_record (ok : Bool) (job : Job) (now : Nat) (s : Store)
    (row : JobRow) (s1 : Store) (h : createOp ok job now s = .ok (row, s1)) :
    row.id = s.nextId ∧ row.name = job.name ∧ row.status = statusStr job.status ∧
    row.created_at = now ∧ row.updated_at = now ∧
    s1.rows = s.rows ++ [row] ∧ s1.nextId = s.nextId + 1 ∧
    (job.status = JobStatus.New → row.status = "new") := by
  cases ok with
  | false => simp [createOp] at h
  | true =>
    have h4 : create job now s = (row, s1) := by
      have h3 : Except.ok (ε := Unit) (create job now s) = .ok (row, s1) := h
      injection h3
    have hr : row = (create job now s).1 := (congrArg Prod.fst h4).symm
    have hs : s1 = (create job now s).2 := (congrArg Prod.snd h4).symm
    subst hr
    subst hs
    refine ⟨rfl, rfl, rfl, rfl, rfl, rfl, rfl, ?_⟩
    intro hN
    show (create job now s).1.status = "new"
    simp [create, hN, statusStr_New]

/-- C3 witness: the amended Insert theorem applied at a concrete successful
call. -/
theorem c3_insert_returns_record_witness :
    createOp true ⟨"abc", JobStatus.New⟩ 0 ⟨[], 1⟩ =
      .ok ((create ⟨"abc", JobStatus.New⟩ 0 ⟨[], 1⟩).1,
        (create ⟨"abc", JobStatus.New⟩ 0 ⟨[], 1⟩).2) ∧
    ((create ⟨"abc", JobStatus.New⟩ 0 ⟨[], 1⟩).1.id = (⟨[], 1⟩ : Store).nextId ∧
      (create ⟨"abc", JobStatus.New⟩ 0 ⟨[], 1⟩).1.name =
        (⟨"abc", JobStatus.New⟩ : Job).name ∧
      (create ⟨"abc", JobStatus.New⟩ 0 ⟨[], 1⟩).1.status =
        statusStr (⟨"abc", JobStatus.New⟩ : Job).status ∧
      (create ⟨"abc", JobStatus.New⟩ 0 ⟨[], 1⟩).1.created_at = 0 ∧
      (create ⟨"abc", JobStatus.New⟩ 0 ⟨[], 1⟩).1.updated_at = 0 ∧
      (create ⟨"abc", JobStatus.New⟩ 0 ⟨[], 1⟩).2.rows =
        (⟨[], 1⟩ : Store).rows ++ [(create ⟨"abc", JobStatus.New⟩ 0 ⟨[], 1⟩).1] ∧
      (create ⟨"abc", JobStatus.New⟩ 0 ⟨[], 1⟩).2.nextId =
        (⟨[], 1⟩ : Store).nextId + 1 ∧
      ((⟨"abc", JobStatus.New⟩ : Job).status = JobStatus.New →
        (create ⟨"abc", JobStatus.New⟩ 0 ⟨[], 1⟩).1.status = "new")) :=
  ⟨rfl, c3_insert_returns_record true ⟨"abc", JobStatus.New⟩ 0 ⟨[], 1⟩
    (create ⟨"abc", JobStatus.New⟩ 0 ⟨[], 1⟩).1
    (create ⟨"abc", JobStatus.New⟩ 0 ⟨[], 1⟩).2 rfl⟩

/-- C4 counterexample: claiming at time 5 a row whose updated_at is 0 returns
and commits the row with updated_at still 0, not 5: the claim UPDATE does not
set updated_at to the time of the claim. -/
theorem c4_counterexample :
    ((acquire_next_job 5 ⟨[⟨1, "abc", "new", 0, 0⟩], 2⟩).1.map (fun r => r.updated_at) =
      some 0) ∧
    ((acquire_next_job 5 ⟨[⟨1, "abc", "new", 0, 0⟩], 2⟩).2.rows.map
      (fun r => r.updated_at) = [0]) ∧
    (0 : Nat) ≠ 5 := by
  decide

/-- C4 (amended): whenever ClaimNext claims a row, the returned and committed
row carries status 'processing' while its id, name, created_at and also its
updated_at are exactly those of the selected 'new' row: updated_at is left
untouched by the claim. -/
theorem c4_claim_frame (now : Nat) (s : Store) (row : JobRow)
    (h : (acquire_next_job now s).1 = some row) :
    ∃ pre, pre ∈ s.rows ∧ pre.status = "new" ∧
      row = ⟨pre.id, pre.name, "processing", pre.created_at, pre.updated_at⟩ ∧
      (acquire_next_job now s).2.rows =
        s.rows.map (fun r => if r.id = pre.id then row else r) := by
  cases hsel : selectNext s.rows with
  | none =>
    have hred : acquire_next_job now s = (none, s) := by
      unfold acquire_next_job
      rw [hsel]
    rw [hred] at h
    cases h
  | some pre =>
    have hred : acquire_next_job now s =
        (some ⟨pre.id, pre.name, "processing", pre.created_at, pre.updated_at⟩,
         ⟨s.rows.map (fun r => if r.id = pre.id then
            (⟨pre.id, pre.name, "processing", pre.created_at, pre.updated_at⟩ : JobRow)
          else r), s.nextId⟩) := by
      unfold acquire_next_job
      rw [hsel]
    rw [hred] at h
    simp only [Option.some.injEq] at h
    obtain ⟨hmem, hnew⟩ := selectNext_mem hsel
    subst h
    exact ⟨pre, hmem, hnew, rfl, by rw [hred]⟩

/-- C4 witness: the amended claim-frame theorem applied at a concrete store
with one claimable row. -/
theorem c4_claim_frame_witness :
    (acquire_next_job 7 ⟨[⟨1, "abc", "new", 3, 4⟩], 2⟩).1 =
      some ⟨1, "abc", "processing", 3, 4⟩ ∧
    (∃ pre, pre ∈ (⟨[⟨1, "abc", "new", 3, 4⟩], 2⟩ : Store).rows ∧ pre.status = "new" ∧
      (⟨1, "abc", "processing", 3, 4⟩ : JobRow) =
        ⟨pre.id, pre.name, "processing", pre.created_at, pre.updated_at⟩ ∧
      (acquire_next_job 7 ⟨[⟨1, "abc", "new", 3, 4⟩], 2⟩).2.rows =
        (⟨[⟨1, "abc", "new", 3, 4⟩], 2⟩ : Store).rows.map
          (fun r => if r.id = pre.id then (⟨1, "abc", "processing", 3, 4⟩ : JobRow)
            else r)) :=
  ⟨by decide, c4_claim_frame 7 ⟨[⟨1, "abc", "new", 3, 4⟩], 2⟩
    ⟨1, "abc", "processing", 3, 4⟩ (by decide)⟩

/-- C5 counterexample: from the empty store, Insert of a job submitted with
status `Failed` followed by ClaimNext returns `none` rather than some record:
the inserted row is not claimable because Insert persisted the submitted
status. -/
theorem c5_counterexample :
    (acquire_next_job 1 (create ⟨"abc", JobStatus.Failed⟩ 0 ⟨[], 1⟩).2).1 = none := by
  decide

/-- C5 (amended): from a store with no claimable rows, Insert of a job
submitted with status New followed by ClaimNext (no other activity) returns
some record with the id Insert returned, the same name and timestamps, and
status 'processing'. -/
theorem c5_insert_then_claim (j : Job) (now now2 : Nat) (s : Store)
    (hquiet : s.rows.all (fun r => !(decide (r.status = "new"))) = true)
    (hnew : j.status = JobStatus.New) :
    (acquire_next_job now2 (create j now s).2).1 =
      some ⟨(create j now s).1.id, (create j now s).1.name, "processing",
        (create j now s).1.created_at, (create j now s).1.updated_at⟩ ∧
    (create j now s).1.id = s.nextId := by
  have hrows : (create j now s).2.rows =
      s.rows ++ [⟨s.nextId, j.name, "new", now, now⟩] := by
    simp [create, hnew, statusStr_New]
  have hsel : selectNext (create j now s).2.rows =
      some ⟨s.nextId, j.name, "new", now, now⟩ := by
    rw [hrows]
    unfold selectNext
    rw [newRows_append, newRows_eq_nil hquiet]
    simp [newRows, pickOldest]
  constructor
  · unfold acquire_next_job
    rw [hsel]
    simp [create, hnew, statusStr_New]
  · rfl

/-- C5 witness: the amended round-trip law applied to the empty store and a
concrete New job. -/
theorem c5_insert_then_claim_witness :
    ((⟨[], 1⟩ : Store).rows.all (fun r => !(decide (r.status = "new"))) = true) ∧
    ((⟨"abc", JobStatus.New⟩ : Job).status = JobStatus.New) ∧
    ((acquire_next_job 1 (create ⟨"abc", JobStatus.New⟩ 0 ⟨[], 1⟩).2).1 =
      some ⟨(create ⟨"abc", JobStatus.New⟩ 0 ⟨[], 1⟩).1.id,
        (create ⟨"abc", JobStatus.New⟩ 0 ⟨[], 1⟩).1.name, "processing",
        (create ⟨"abc", JobStatus.New⟩ 0 ⟨[], 1⟩).1.created_at,
        (create ⟨"abc", JobStatus.New⟩ 0 ⟨[], 1⟩).1.updated_at⟩ ∧
      (create ⟨"abc", JobStatus.New⟩ 0 ⟨[], 1⟩).1.id = (⟨[], 1⟩ : Store).nextId) :=
  ⟨by decide, rfl,
    c5_insert_then_claim ⟨"abc", JobStatus.New⟩ 0 1 ⟨[], 1⟩ (by decide) rfl⟩

set_option linter.unusedVariables false in
/-- C8: the spawned executor, after its simulated-work sleep, with draw r in
[0, 100), writes exactly one terminal status for its job via the store's
status update: 'success' iff r < 77, 'failed' otherwise. -/
theorem c8_executor_outcome (jobId r now : Nat) (s : Store) (h : r < 100) :
    (runExecutor jobId r now s).2.length = 1 ∧
    (∀ w ∈ (runExecutor jobId r now s).2,
      w.jobId = jobId ∧ (w.status = "success" ↔ r < 77) ∧
      (w.status = "failed" ↔ 77 ≤ r)) ∧
    (runExecutor jobId r now s).1 = update_job_status jobId (executorStatus r) now s := by
  refine ⟨rfl, ?_, rfl⟩
  intro w hw
  simp only [runExecutor, List.mem_singleton] at hw
  subst hw
  by_cases h77 : r < 77
  · refine ⟨rfl, ?_, ?_⟩
    · simp [executorStatus, h77]
    · simp only [executorStatus, if_pos h77]
      constructor
      · intro hfalse
        exact absurd hfalse (by decide)
      · intro hle
        exact absurd h77 (Nat.not_lt.mpr hle)
  · refine ⟨rfl, ?_, ?_⟩
    · simp only [executorStatus, if_neg h77]
      constructor
      · intro hfalse
        exact absurd hfalse (by decide)
      · intro hlt
        exact absurd hlt h77
    · simp [executorStatus, h77, Nat.not_lt.mp h77]

/-- C8 witness: the executor-outcome theorem applied at the concrete draw 50. -/
theorem c8_executor_outcome_witness :
    (50 : Nat) < 100 ∧
    ((runExecutor 1 50 9 ⟨[], 1⟩).2.length = 1 ∧
      (∀ w ∈ (runExecutor 1 50 9 ⟨[], 1⟩).2,
        w.jobId = 1 ∧ (w.status = "success" ↔ (50 : Nat) < 77) ∧
        (w.status = "failed" ↔ (77 : Nat) ≤ 50)) ∧
      (runExecutor 1 50 9 ⟨[], 1⟩).1 = update_job_status 1 (executorStatus 50) 9 ⟨[], 1⟩) :=
  ⟨by decide, c8_executor_outcome 1 50 9 ⟨[], 1⟩ (by decide)⟩

/-- C10: every status value the program writes lies in
{new, processing, success, failed}: each store-writing operation — insert,
bulk insert, claim-next, and the executor's terminal write — preserves the
invariant that all rows carry one of the four status strings. -/
theorem c10_status_invariant (op : StoreOp) (now : Nat) (s : Store)
    (h : storeInv s = true) : storeInv (applyOp op now s) = true := by
  cases op with
  | insertOne ok job =>
    cases ok with
    | false => exact h
    | true =>
      show storeInv (create job now s).2 = true
      simp only [create, storeInv, List.all_append, List.all_cons, List.all_nil,
        Bool.and_eq_true] at h ⊢
      exact ⟨h, validStatusB_statusStr job.status, trivial⟩
  | bulkInsert ok jobs =>
    cases jobs with
    | nil => exact h
    | cons j js =>
      cases ok with
      | false => exact h
      | true =>
        show storeInv ((bulkTuples (j :: js)).foldl (insertTuple now) s) = true
        refine storeInv_foldl_insertTuple ?_ h
        intro t ht
        obtain ⟨u, _, rfl⟩ := List.mem_map.mp ht
        exact validStatusB_statusStr u.status
  | claimNext =>
    cases hsel : selectNext s.rows with
    | none =>
      have hred : applyOp .claimNext now s = s := by
        show (acquire_next_job now s).2 = s
        unfold acquire_next_job
        rw [hsel]
      rw [hred]
      exact h
    | some pre =>
      have hred : applyOp .claimNext now s =
          ⟨s.rows.map (fun r => if r.id = pre.id then
            (⟨pre.id, pre.name, "processing", pre.created_at, pre.updated_at⟩ : JobRow)
            else r), s.nextId⟩ := by
        show (acquire_next_job now s).2 = _
        unfold acquire_next_job
        rw [hsel]
      rw [hred]
      simp only [storeInv, List.all_map]
      rw [List.all_eq_true]
      intro x hx
      by_cases hid : x.id = pre.id
      · simp [Function.comp, hid]
        decide
      · simp only [Function.comp, hid, if_neg hid]
        exact List.all_eq_true.mp h x hx
  | finalize jobId r =>
    show storeInv (update_job_status jobId (executorStatus r) now s) = true
    unfold storeInv update_job_status
    rw [List.all_map, List.all_eq_true]
    intro x hx
    by_cases hid : x.id = jobId
    · simp [Function.comp, hid, validStatusB_executorStatus]
    · simp only [Function.comp, hid, if_neg hid]
      exact List.all_eq_true.mp h x hx

/-- C10 witness: invariant preservation applied to a concrete claim against a
one-row store. -/
theorem c10_status_invariant_witness :
    storeInv ⟨[⟨1, "abc", "new", 0, 0⟩], 2⟩ = true ∧
    storeInv (applyOp .claimNext 3 ⟨[⟨1, "abc", "new", 0, 0⟩], 2⟩) = true :=
  ⟨by decide, c10_status_invariant .claimNext 3 ⟨[⟨1, "abc", "new", 0, 0⟩], 2⟩ (by decide)⟩

end JobProcessor
